import Mathlib

/-!
Verification of the parsing/evaluation core of cas-rs.

The Lean definitions below shallowly embed the parser engine of
src/cas-parser/src/parser/mod.rs (the Parser state, its primitive token
consumption, span queries and backtracking combinators), the error model of
src/cas-parser/src/parser/error.rs, and the unary-operator dispatch of
src/cas-eval/src/eval/unary.rs.  Rust Result is embedded as Except, a
`&mut self` method as a function returning the result together with the
updated Parser, and machine floats/big integers of the external arithmetic
helpers as exact rationals/integers.
-/

namespace CasRs

/-- A half-open byte-offset interval `start..stop` into the source text
(Rust's `Range<usize>`; the Rust field `end` is a Lean keyword, so it is
called `stop` here). -/
structure Span where
  start : Nat
  stop : Nat
deriving DecidableEq

/-- Modelled from the spec: the tokenizer collaborator (not under src/)
produces tokens with a kind and a span; whitespace tokens are structurally
present in the stream.  Kinds other than whitespace are abstracted by an
identifier, since the grammar decisions verified here depend only on
whitespace-ness. -/
inductive TokenKind where
  | Whitespace
  | Other (id : Nat)
deriving DecidableEq

/-- Modelled from the spec: a token of the externally produced stream,
`{kind, span}`. -/
structure Token where
  kind : TokenKind
  span : Span
deriving DecidableEq

/-- Modelled from the spec: `Token::is_whitespace`, true exactly for
whitespace tokens. -/
def Token.is_whitespace (t : Token) : Bool :=
  t.kind == TokenKind.Whitespace

/-- The kind of error that occurred (src/cas-parser/src/parser/error.rs,
`enum ErrorKind`), together with the two further kinds `UnexpectedEof` and
`ExpectedEof` that src/cas-parser/src/parser/mod.rs constructs (the snapshot
mixes two revisions of the error module; the union makes every use in
mod.rs well defined). -/
inductive ErrorKind where
  | Eof
  | UnexpectedEof
  | ExpectedEof
  | UnexpectedToken (expected : List TokenKind) (found : TokenKind)
  | NonFatal
deriving DecidableEq

/-- A general parsing error (src/cas-parser/src/parser/error.rs,
`struct Error`): the span it originated from and its kind. -/
structure Error where
  span : Span
  kind : ErrorKind
deriving DecidableEq

/-- Creates a new error with the given span and kind (`Error::new`). -/
def Error.new (span : Span) (kind : ErrorKind) : Error :=
  ⟨span, kind⟩

/-- The parser state (src/cas-parser/src/parser/mod.rs, `struct Parser`):
the token stream and the index of the next token to be parsed. -/
structure Parser where
  tokens : List Token
  cursor : Nat
deriving DecidableEq

/-- Modelled from the spec: the outcome of the external tokenizer
collaborator `tokenize_complete` (its code is not under src/) — either the
full token stream or a tokenization error, whose content is irrelevant
here. -/
structure TokenizeError where
  code : Nat
deriving DecidableEq

/-- `Parser::new` (mod.rs lines 25-30), as a function of the tokenizer
collaborator's outcome: the source calls `tokenize_complete(source).unwrap()`,
so a tokenizer error makes it panic — embedded as `none` — while on success
the parser holds the full token stream with the cursor at 0. -/
def Parser.new (tok_result : Except TokenizeError (List Token)) : Option Parser :=
  match tok_result with
  | Except.ok tokens => some { tokens := tokens, cursor := 0 }
  | Except.error _ => none

/-- Returns a span pointing at the end of the source code
(`Parser::eof_span`): zero-width at the end of the last token, or `0..0`
for an empty stream. -/
def Parser.eof_span (p : Parser) : Span :=
  match p.tokens.getLast? with
  | none => ⟨0, 0⟩
  | some token => ⟨token.span.stop, token.span.stop⟩

/-- Returns the span of the current token, or the end of the source code if
the cursor is at the end of the stream (`Parser::span`). -/
def Parser.span (p : Parser) : Span :=
  match p.tokens.get? p.cursor with
  | some token => token.span
  | none => p.eof_span

/-- Creates an error that points at the current token, or the end of the
source code if the cursor is at the end of the stream (`Parser::error`). -/
def Parser.error (p : Parser) (kind : ErrorKind) : Error :=
  Error.new p.span kind

/-- Creates a `NonFatal` error that points at the current token
(`Parser::non_fatal`). -/
def Parser.non_fatal (p : Parser) : Error :=
  Error.new p.span ErrorKind.NonFatal

/-- Returns the previous token without moving the cursor, `none` at the
beginning of the stream (`Parser::prev_token`). -/
def Parser.prev_token (p : Parser) : Option Token :=
  if p.cursor = 0 then none else p.tokens.get? (p.cursor - 1)

/-- Returns the next token to be parsed, then advances the cursor,
skipping whitespace tokens; an `UnexpectedEof` error if no more tokens
remain (`Parser::next_token`, mod.rs lines 66-79).  The source's `while`
loop is embedded as recursion on the remaining token count. -/
def Parser.next_token (p : Parser) : Except Error Token × Parser :=
  if h : p.cursor < p.tokens.length then
    let token := p.tokens.get ⟨p.cursor, h⟩
    let p' : Parser := { p with cursor := p.cursor + 1 }
    if token.is_whitespace then
      p'.next_token
    else
      (Except.ok token, p')
  else
    (Except.error (p.error ErrorKind.UnexpectedEof), p)
termination_by p.tokens.length - p.cursor
decreasing_by omega

/-- Speculatively parses a value using a custom parsing function,
backtracking the cursor position if parsing fails
(`Parser::try_parse_with_fn`, mod.rs lines 98-110). -/
def Parser.try_parse_with_fn {α : Type} (p : Parser)
    (f : Parser → Except Error α × Parser) : Except Error α × Parser :=
  let start := p.cursor
  match f p with
  | (Except.ok value, p') => (Except.ok value, p')
  | (Except.error e, p') => (Except.error e, { p' with cursor := start })

/-- Any type that can be parsed from a source of tokens (`trait Parse`).
`parse` threads the parser state explicitly. -/
class Parse (α : Type) where
  parse : Parser → Except Error α × Parser

/-- Speculatively parses a value of a `Parse` type, backtracking on
failure (`Parser::try_parse`, mod.rs lines 87-89): delegates to
`try_parse_with_fn` with the type's `parse` function. -/
def Parser.try_parse (α : Type) [Parse α] (p : Parser) :
    Except Error α × Parser :=
  p.try_parse_with_fn (Parse.parse : Parser → Except Error α × Parser)

/-- Speculatively parses a value with a validation predicate: the value
must parse successfully and the predicate must return `Ok` for the whole
call to succeed; otherwise the cursor is restored and the error returned
(`Parser::try_parse_then`, mod.rs lines 118-138).  The predicate takes the
value and the parser by shared reference, so it returns no parser state. -/
def Parser.try_parse_then (α : Type) [Parse α] (p : Parser)
    (predicate : α → Parser → Except Error Unit) : Except Error α × Parser :=
  let start := p.cursor
  let compute : Except Error α × Parser :=
    match (Parse.parse p : Except Error α × Parser) with
    | (Except.error e, p') => (Except.error e, p')
    | (Except.ok value, p') =>
      match predicate value p' with
      | Except.error e => (Except.error e, p')
      | Except.ok _ => (Except.ok value, p')
  match compute with
  | (Except.ok value, p') => (Except.ok value, p')
  | (Except.error e, p') => (Except.error e, { p' with cursor := start })

/-- Attempts to parse a value and requires all tokens to be consumed; if
tokens remain, an `ExpectedEof` error pointing at the current token is
returned, with the cursor left where the inner parse put it
(`Parser::try_parse_full`, mod.rs lines 142-149). -/
def Parser.try_parse_full (α : Type) [Parse α] (p : Parser) :
    Except Error α × Parser :=
  match (Parse.parse p : Except Error α × Parser) with
  | (Except.error e, p') => (Except.error e, p')
  | (Except.ok value, p') =>
    if p'.cursor = p'.tokens.length then
      (Except.ok value, p')
    else
      (Except.error (p'.error ErrorKind.ExpectedEof), p')

/-- The precedence of an operation, lowest to highest
(src/cas-parser/src/parser/mod.rs, `enum Precedence`, lines 181-204). -/
inductive Precedence where
  | Any
  | Term
  | Factor
  | Exp
  | Factorial
  | Neg
  | Not
deriving DecidableEq, Fintype

/-- The `as u8` discriminant of a `Precedence` value: Rust assigns
consecutive discriminants in declaration order starting at 0. -/
def Precedence.toU8 : Precedence → Nat
  | .Any => 0
  | .Term => 1
  | .Factor => 2
  | .Exp => 3
  | .Factorial => 4
  | .Neg => 5
  | .Not => 6

/-- The `PartialOrd` implementation for `Precedence` (mod.rs lines
206-212): compare the `as u8` discriminants; on `u8` this always yields
`some` of the natural comparison. -/
def Precedence.partial_cmp (a b : Precedence) : Option Ordering :=
  some (compare a.toU8 b.toU8)

/-- The strict order derived from `Precedence.partial_cmp`, as Rust's
`<` on a `PartialOrd` type. -/
def Precedence.lt (a b : Precedence) : Prop :=
  a.partial_cmp b = some Ordering.lt

/-- The non-strict order derived from `Precedence.partial_cmp`, as Rust's
`<=` on a `PartialOrd` type. -/
def Precedence.le (a b : Precedence) : Prop :=
  a.partial_cmp b = some Ordering.lt ∨ a.partial_cmp b = some Ordering.eq

instance : DecidablePred fun ab : Precedence × Precedence => ab.1.lt ab.2 :=
  fun _ => by unfold Precedence.lt; infer_instance

instance (a b : Precedence) : Decidable (a.lt b) := by
  unfold Precedence.lt; infer_instance

instance (a b : Precedence) : Decidable (a.le b) := by
  unfold Precedence.le; infer_instance

/-- A unary operator kind
(src/cas-parser/src/parser/token/op.rs, `enum UnaryOpKind`; its four
variants are the ones `Unary::eval` matches on). -/
inductive UnaryOpKind where
  | Not
  | BitNot
  | Factorial
  | Neg
deriving DecidableEq

/-- The operator token of a unary expression: the `self.op` of `Unary`,
carrying the operator kind and the operator token's span as used by
`Unary::eval`. -/
structure UnaryOp where
  kind : UnaryOpKind
  span : Span
deriving DecidableEq

/-- A complex number of the evaluation engine (the external `rug::Complex`
collaborator), embedded exactly as a real and an imaginary component. -/
structure GComplex where
  re : ℚ
  im : ℚ
deriving DecidableEq

/-- Modelled from the spec: `Complex::eq0` of the arithmetic collaborator
is zero-ness of both components. -/
def GComplex.eq0 (c : GComplex) : Bool :=
  c.re == 0 && c.im == 0

/-- Modelled from the spec: `as_neg` of the arithmetic collaborator negates
both components. -/
def GComplex.as_neg (c : GComplex) : GComplex :=
  ⟨-c.re, -c.im⟩

/-- The runtime value algebra of the evaluation engine
(src/cas-eval/src/value.rs, `enum Value`): real numbers, complex numbers,
booleans and the unit value.  Machine floats are embedded as exact
rationals. -/
inductive Value where
  | Number (n : ℚ)
  | Complex (c : GComplex)
  | Boolean (b : Bool)
  | Unit
deriving DecidableEq

/-- Modelled from the spec: `Value::typename` (not under src/) names the
operand's type in invalid-operation errors, one name per variant. -/
def Value.typename : Value → String
  | .Number _ => "Number"
  | .Complex _ => "Complex"
  | .Boolean _ => "Boolean"
  | .Unit => "Unit"

/-- Modelled from the spec: `int_from_float` of the arithmetic collaborator
truncates a number to an integer (rounding toward zero). -/
def int_from_float (q : ℚ) : ℤ :=
  Int.tdiv q.num q.den

/-- Modelled from the spec: `!` on the arithmetic collaborator's big
integers is the bitwise complement, `-(n + 1)` in two's complement. -/
def bit_not (n : ℤ) : ℤ :=
  -(n + 1)

/-- Modelled from the spec: the `factorial` helper of the arithmetic
collaborator on a truncated integer operand. -/
def factorial (n : ℤ) : ℤ :=
  Nat.factorial n.toNat

/-- Modelled from the spec: `float` widens an integer back to the number
representation. -/
def float (n : ℤ) : ℚ :=
  (n : ℚ)

/-- The kinds of evaluation errors this development needs
(src/cas-eval/src/error/kind.rs): the invalid-unary-operation payload
carries the operator and the operand's type name. -/
inductive EvalErrorKind where
  | InvalidUnaryOperation (op : UnaryOpKind) (expr_type : String)
deriving DecidableEq

/-- An evaluation error (src/cas-eval/src/error.rs): the spans it
originated from and its kind, built by `Error::new(vec![...], kind)`. -/
structure EvalError where
  spans : List Span
  kind : EvalErrorKind
deriving DecidableEq

/-- The body of `Unary::eval` (src/cas-eval/src/eval/unary.rs, lines
12-45) after the line `let operand = self.operand.eval(ctxt)?;`:
`operand` is the operand's evaluated value, `operand_span` is
`self.operand.span()` and `op` is `self.op`.  The match below embeds the
source's `match operand` block arm for arm. -/
def Unary.eval_value (operand : Value) (operand_span : Span) (op : UnaryOp) :
    Except EvalError Value :=
  match operand with
  | Value.Number num =>
    Except.ok (match op.kind with
      | UnaryOpKind.Not => Value.Boolean (num == 0)
      | UnaryOpKind.BitNot => Value.Number (float (bit_not (int_from_float num)))
      | UnaryOpKind.Factorial => Value.Number (float (factorial (int_from_float num)))
      | UnaryOpKind.Neg => Value.Number (-num))
  | Value.Complex comp =>
    match op.kind with
    | UnaryOpKind.Not => Except.ok (Value.Boolean comp.eq0)
    | UnaryOpKind.Neg => Except.ok (Value.Complex comp.as_neg)
    | _ => Except.error ⟨[operand_span, op.span],
        EvalErrorKind.InvalidUnaryOperation op.kind (Value.Complex comp).typename⟩
  | Value.Boolean b =>
    if op.kind == UnaryOpKind.Not then
      Except.ok (Value.Boolean (!b))
    else
      Except.error ⟨[operand_span, op.span],
        EvalErrorKind.InvalidUnaryOperation op.kind (Value.Boolean b).typename⟩
  | Value.Unit =>
    Except.error ⟨[operand_span, op.span],
      EvalErrorKind.InvalidUnaryOperation op.kind Value.Unit.typename⟩

/-!
Helper lemmas: single-step unfoldings of the `next_token` loop, and the
loop's effect on the parser state.
-/

/-- A whitespace token at the cursor is skipped: one iteration of the
`next_token` loop. -/
theorem next_token_eq_ws (p : Parser) (t : Token)
    (ht : p.tokens.get? p.cursor = some t) (hw : t.is_whitespace = true) :
    p.next_token = Parser.next_token { p with cursor := p.cursor + 1 } := by
  obtain ⟨h, hget⟩ := List.get?_eq_some.mp ht
  rw [Parser.next_token, dif_pos h]
  simp only [hget, hw, if_pos]

/-- A non-whitespace token at the cursor is returned, cursor advanced past
it. -/
theorem next_token_eq_tok (p : Parser) (t : Token)
    (ht : p.tokens.get? p.cursor = some t) (hw : t.is_whitespace = false) :
    p.next_token = (Except.ok t, { p with cursor := p.cursor + 1 }) := by
  obtain ⟨h, hget⟩ := List.get?_eq_some.mp ht
  rw [Parser.next_token, dif_pos h]
  simp only [hget, hw]
  simp

/-- With the cursor at or past the end, `next_token` fails with
`UnexpectedEof` at the end-of-source span and leaves the state as is. -/
theorem next_token_eq_eof (p : Parser) (hle : p.tokens.length ≤ p.cursor) :
    p.next_token = (Except.error (Error.new p.eof_span ErrorKind.UnexpectedEof), p) := by
  rw [Parser.next_token, dif_neg (by omega)]
  unfold Parser.error Parser.span
  rw [List.get?_eq_none.mpr hle]

/-- `next_token` never touches the token stream and only moves the cursor
forward, never past the end of the stream (when it started within it). -/
theorem next_token_state (p : Parser) :
    (p.next_token).2.tokens = p.tokens ∧
    p.cursor ≤ (p.next_token).2.cursor ∧
    (p.next_token).2.cursor ≤ max p.cursor p.tokens.length := by
  generalize hm : p.tokens.length - p.cursor = m
  induction m generalizing p with
  | zero =>
    rw [next_token_eq_eof p (by omega)]
    simp
  | succ n ih =>
    have h : p.cursor < p.tokens.length := by omega
    obtain ⟨t, ht⟩ : ∃ t, p.tokens.get? p.cursor = some t :=
      ⟨_, List.get?_eq_get h⟩
    cases hw : t.is_whitespace with
    | true =>
      rw [next_token_eq_ws p t ht hw]
      have h2 := ih { p with cursor := p.cursor + 1 } (by simp; omega)
      simp at h2 ⊢
      refine ⟨h2.1, by omega, by omega⟩
    | false =>
      rw [next_token_eq_tok p t ht hw]
      simp
      omega

/-- When the token at index `i` is the first non-whitespace token at or
after the cursor, `next_token` returns it and leaves the cursor at
`i + 1`. -/
theorem next_token_finds (p : Parser) (i : Nat) (t : Token)
    (h1 : p.cursor ≤ i) (h2 : p.tokens.get? i = some t) (h3 : t.is_whitespace = false)
    (h4 : ∀ j, p.cursor ≤ j → j < i → ∀ u, p.tokens.get? j = some u →
      u.is_whitespace = true) :
    p.next_token = (Except.ok t, { p with cursor := i + 1 }) := by
  generalize hm : i - p.cursor = m
  induction m generalizing p with
  | zero =>
    have hc : p.cursor = i := by omega
    rw [next_token_eq_tok p t (hc ▸ h2) h3, hc]
  | succ n ih =>
    have hlt : p.cursor < i := by omega
    have hil : i < p.tokens.length := (List.get?_eq_some.mp h2).1
    obtain ⟨u, hu⟩ : ∃ u, p.tokens.get? p.cursor = some u :=
      ⟨_, List.get?_eq_get (by omega)⟩
    have huw : u.is_whitespace = true := h4 p.cursor le_rfl hlt u hu
    rw [next_token_eq_ws p u hu huw]
    exact ih { p with cursor := p.cursor + 1 } (by simpa using hlt) h2
      (fun j hj hji v hv => h4 j (by simp at hj; omega) hji v hv)
      (by simp; omega)

/-- When every token at or after the cursor is whitespace, `next_token`
consumes all of them, ending with the cursor at the end of the stream, and
fails with `UnexpectedEof` at the end-of-source span. -/
theorem next_token_exhausts (p : Parser)
    (hall : ∀ j, p.cursor ≤ j → ∀ u, p.tokens.get? j = some u →
      u.is_whitespace = true) :
    p.next_token = (Except.error (Error.new p.eof_span ErrorKind.UnexpectedEof),
      { p with cursor := max p.cursor p.tokens.length }) := by
  generalize hm : p.tokens.length - p.cursor = m
  induction m generalizing p with
  | zero =>
    have hle : p.tokens.length ≤ p.cursor := by omega
    rw [next_token_eq_eof p hle]
    have : max p.cursor p.tokens.length = p.cursor := by omega
    rw [this]
  | succ n ih =>
    have h : p.cursor < p.tokens.length := by omega
    obtain ⟨u, hu⟩ : ∃ u, p.tokens.get? p.cursor = some u :=
      ⟨_, List.get?_eq_get h⟩
    have huw : u.is_whitespace = true := hall p.cursor le_rfl u hu
    rw [next_token_eq_ws p u hu huw]
    have h2 := ih { p with cursor := p.cursor + 1 }
      (fun j hj v hv => hall j (by simp at hj; omega) v hv)
      (by simp; omega)
    rw [h2]
    have heq : Parser.eof_span { p with cursor := p.cursor + 1 } = p.eof_span := rfl
    simp only [heq]
    have : max (p.cursor + 1) p.tokens.length = max p.cursor p.tokens.length := by omega
    simp [this]

/-!
Concrete fixtures used to evaluate the theorems on explicit inputs.
-/

/-- A concrete non-whitespace token. -/
def tokA : Token := ⟨TokenKind.Other 1, ⟨0, 1⟩⟩

/-- A second concrete non-whitespace token. -/
def tokB : Token := ⟨TokenKind.Other 2, ⟨2, 3⟩⟩

/-- A concrete whitespace token. -/
def wsTok : Token := ⟨TokenKind.Whitespace, ⟨0, 1⟩⟩

/-- A second concrete whitespace token. -/
def wsTok2 : Token := ⟨TokenKind.Whitespace, ⟨1, 2⟩⟩

/-- A parser over the empty token stream. -/
def pEmpty : Parser := ⟨[], 0⟩

/-- A parser over one non-whitespace token. -/
def pOne : Parser := ⟨[tokA], 0⟩

/-- A parser over two non-whitespace tokens. -/
def pTwo : Parser := ⟨[tokA, tokB], 0⟩

/-- A parser over two whitespace tokens only. -/
def pWs2 : Parser := ⟨[wsTok, wsTok2], 0⟩

/-- The error `next_token` produces on the empty stream. -/
def eE : Error := Error.new ⟨0, 0⟩ ErrorKind.UnexpectedEof

/-- A wrapper type used to exercise the `Parse`-polymorphic combinators on
a concrete instance. -/
structure NToken where
  t : Token
deriving DecidableEq

/-- A concrete parse function for `NToken`: consume the token at the
cursor when it is present and not whitespace. -/
def parse_one (p : Parser) : Except Error NToken × Parser :=
  match p.tokens.get? p.cursor with
  | some t =>
    if t.is_whitespace then (Except.error p.non_fatal, p)
    else (Except.ok ⟨t⟩, { p with cursor := p.cursor + 1 })
  | none => (Except.error (p.error ErrorKind.UnexpectedEof), p)

instance : Parse NToken := ⟨parse_one⟩

/-- C1: if a call to `try_parse`, `try_parse_with_fn` or `try_parse_then`
fails — with any error, fatal or non-fatal, including a predicate failure
in `try_parse_then` — then the cursor after the call equals the cursor
before the call, and the returned error is exactly the error produced by
the parse function (or the predicate), unmodified. -/
theorem C1_try_parse_failure_backtracks_unmodified {α : Type} [Parse α]
    (p q : Parser) (f : Parser → Except Error α × Parser)
    (predicate : α → Parser → Except Error Unit) (e : Error) (v : α) :
    (f p = (Except.error e, q) →
       p.try_parse_with_fn f = (Except.error e, { q with cursor := p.cursor }))
  ∧ (Parse.parse p = ((Except.error e : Except Error α), q) →
       Parser.try_parse α p = (Except.error e, { q with cursor := p.cursor }))
  ∧ (Parse.parse p = ((Except.error e : Except Error α), q) →
       Parser.try_parse_then α p predicate =
         (Except.error e, { q with cursor := p.cursor }))
  ∧ (Parse.parse p = (Except.ok v, q) → predicate v q = Except.error e →
       Parser.try_parse_then α p predicate =
         (Except.error e, { q with cursor := p.cursor })) := by
  refine ⟨?_, ?_, ?_, ?_⟩
  · intro h
    simp only [Parser.try_parse_with_fn, h]
  · intro h
    simp only [Parser.try_parse, Parser.try_parse_with_fn, h]
  · intro h
    simp only [Parser.try_parse_then, h]
  · intro h hp
    simp only [Parser.try_parse_then, h, hp]

/-- C1 witness: the backtracking equations evaluated at concrete parsers,
parse functions and predicates, for each of the three failure paths. -/
theorem C1_witness :
    (pEmpty.try_parse_with_fn
       (fun p => ((Except.error eE : Except Error NToken), p)) =
       (Except.error eE, pEmpty))
  ∧ (Parser.try_parse NToken pEmpty = (Except.error eE, pEmpty))
  ∧ (Parser.try_parse_then NToken pEmpty (fun _ _ => Except.ok ()) =
       (Except.error eE, pEmpty))
  ∧ (Parser.try_parse_then NToken pOne (fun _ _ => Except.error eE) =
       (Except.error eE, pOne)) := by
  have h1 := C1_try_parse_failure_backtracks_unmodified (α := NToken)
    pEmpty pEmpty (fun p => (Except.error eE, p)) (fun _ _ => Except.ok ())
    eE ⟨tokA⟩
  have h2 := C1_try_parse_failure_backtracks_unmodified (α := NToken)
    pOne ⟨[tokA], 1⟩ (fun p => (Except.error eE, p))
    (fun _ _ => Except.error eE) eE ⟨tokA⟩
  exact ⟨h1.1 rfl, h1.2.1 rfl, h1.2.2.1 rfl, h2.2.2.2 rfl rfl⟩

/-- C4 as stated is refuted at a concrete input: on a failing tokenizer
outcome, `Parser::new` unwraps and panics (embedded as `none`) instead of
returning by propagating the tokenizer's error. -/
theorem C4_counterexample : Parser.new (Except.error ⟨0⟩) = none := rfl

/-- C4 amended: for every tokenizer outcome, `Parser::new` panics
(embedded as `none`) when the tokenizer collaborator fails — it does not
propagate the error — and when tokenization succeeds the constructed
parser holds the full token stream with its cursor at 0. -/
theorem C4_new_unwraps_tokenizer_result (e : TokenizeError) (ts : List Token) :
    Parser.new (Except.error e) = none ∧
    Parser.new (Except.ok ts) = some { tokens := ts, cursor := 0 } :=
  ⟨rfl, rfl⟩

/-- C5: `try_parse_full` returns the parsed value exactly when the inner
parse succeeds and the cursor has reached the length of the token stream
(whitespace tokens count); when the parse succeeds but a token remains, it
returns an `ExpectedEof` error pointing at the current token and leaves
the cursor where the inner parse put it — it does not restore the cursor
to its pre-call value; a failing inner parse propagates its error, again
without restoring. -/
theorem C5_try_parse_full_requires_eof {α : Type} [Parse α] (p q : Parser)
    (v : α) (e : Error) :
    (Parse.parse p = (Except.ok v, q) → q.cursor = q.tokens.length →
       Parser.try_parse_full α p = (Except.ok v, q))
  ∧ (Parse.parse p = (Except.ok v, q) → q.cursor ≠ q.tokens.length →
       Parser.try_parse_full α p =
         (Except.error (q.error ErrorKind.ExpectedEof), q))
  ∧ (Parse.parse p = ((Except.error e : Except Error α), q) →
       Parser.try_parse_full α p = (Except.error e, q)) := by
  refine ⟨?_, ?_, ?_⟩
  · intro h he
    simp only [Parser.try_parse_full, h, if_pos he]
  · intro h hne
    simp only [Parser.try_parse_full, h, if_neg hne]
  · intro h
    simp only [Parser.try_parse_full, h]

/-- C5 witness: a full parse that consumes the single token; a full parse
that leaves a token and fails with `ExpectedEof` at that token without
restoring the cursor to 0; a failing inner parse. -/
theorem C5_witness :
    (Parser.try_parse_full NToken pOne = (Except.ok ⟨tokA⟩, ⟨[tokA], 1⟩))
  ∧ (Parser.try_parse_full NToken pTwo =
       (Except.error (Error.new ⟨2, 3⟩ ErrorKind.ExpectedEof),
        ⟨[tokA, tokB], 1⟩))
  ∧ (Parser.try_parse_full NToken pEmpty = (Except.error eE, pEmpty)) := by
  have h1 := C5_try_parse_full_requires_eof (α := NToken) pOne ⟨[tokA], 1⟩
    ⟨tokA⟩ eE
  have h2 := C5_try_parse_full_requires_eof (α := NToken) pTwo
    ⟨[tokA, tokB], 1⟩ ⟨tokA⟩ eE
  have h3 := C5_try_parse_full_requires_eof (α := NToken) pEmpty pEmpty
    ⟨tokA⟩ eE
  exact ⟨h1.1 rfl rfl, h2.2.1 rfl (by decide), h3.2.2 rfl⟩

/-- C6: `next_token` returns the first non-whitespace token at or after
the cursor and leaves the cursor just past that token; when no
non-whitespace token remains, it returns an `UnexpectedEof` error whose
span is the zero-width end-of-source span. -/
theorem C6_next_token_spec :
    (∀ (p : Parser) (i : Nat) (t : Token), p.cursor ≤ i →
       p.tokens.get? i = some t → t.is_whitespace = false →
       (∀ j, p.cursor ≤ j → j < i → ∀ u, p.tokens.get? j = some u →
          u.is_whitespace = true) →
       p.next_token = (Except.ok t, { p with cursor := i + 1 }))
  ∧ (∀ p : Parser,
       (∀ j, p.cursor ≤ j → ∀ u, p.tokens.get? j = some u →
          u.is_whitespace = true) →
       (p.next_token).1 =
         Except.error (Error.new p.eof_span ErrorKind.UnexpectedEof)) := by
  refine ⟨next_token_finds, fun p hall => ?_⟩
  rw [next_token_exhausts p hall]

/-- C6 witness: on the stream `[whitespace, tokB]` the whitespace is
skipped and `tokB` returned with the cursor at 2; on the all-whitespace
stream the call fails with `UnexpectedEof` at the zero-width span `2..2`
after the last token. -/
theorem C6_witness :
    (Parser.next_token ⟨[wsTok, tokB], 0⟩ =
       (Except.ok tokB, ⟨[wsTok, tokB], 2⟩))
  ∧ ((Parser.next_token pWs2).1 =
       Except.error (Error.new ⟨2, 2⟩ ErrorKind.UnexpectedEof)) := by
  constructor
  · exact C6_next_token_spec.1 ⟨[wsTok, tokB], 0⟩ 1 tokB (by decide) rfl rfl
      (by
        intro j _ hj u hu
        have hj0 : j = 0 := by omega
        subst hj0
        simp only [List.get?] at hu
        cases hu
        rfl)
  · exact C6_next_token_spec.2 pWs2
      (by
        intro j _ u hu
        have hm := List.get?_mem hu
        simp only [pWs2] at hm
        rcases List.mem_pair.mp hm with h | h <;> subst h <;> rfl)

/-- C8: every state-mutating public `Parser` operation preserves the
invariant `0 ≤ cursor ≤ len(tokens)` (the lower bound holds by the
embedding's `Nat` cursor).  `next_token` preserves it outright; each
backtracking combinator and `try_parse_full` preserves it provided the
supplied parse function does and never replaces the token stream — as
every parse function built on this API does.  The remaining listed
operations (`span`, `prev_token`, `error`, `non_fatal`) take the parser by
shared reference and return no parser state, so they cannot disturb the
invariant. -/
theorem C8_cursor_stays_within_bounds {α : Type} [Parse α] (p : Parser)
    (f : Parser → Except Error α × Parser)
    (predicate : α → Parser → Except Error Unit)
    (hp : p.cursor ≤ p.tokens.length)
    (hf : (f p).2.cursor ≤ (f p).2.tokens.length ∧ (f p).2.tokens = p.tokens)
    (hparse : (Parse.parse p : Except Error α × Parser).2.cursor ≤
        (Parse.parse p : Except Error α × Parser).2.tokens.length ∧
      (Parse.parse p : Except Error α × Parser).2.tokens = p.tokens) :
    ((p.next_token).2.cursor ≤ (p.next_token).2.tokens.length)
  ∧ ((p.try_parse_with_fn f).2.cursor ≤ (p.try_parse_with_fn f).2.tokens.length)
  ∧ ((Parser.try_parse α p).2.cursor ≤ (Parser.try_parse α p).2.tokens.length)
  ∧ ((Parser.try_parse_then α p predicate).2.cursor ≤
       (Parser.try_parse_then α p predicate).2.tokens.length)
  ∧ ((Parser.try_parse_full α p).2.cursor ≤
       (Parser.try_parse_full α p).2.tokens.length) := by
  obtain ⟨hn1, _, hn3⟩ := next_token_state p
  have hwf : ∀ (g : Parser → Except Error α × Parser),
      (g p).2.cursor ≤ (g p).2.tokens.length → (g p).2.tokens = p.tokens →
      (p.try_parse_with_fn g).2.cursor ≤ (p.try_parse_with_fn g).2.tokens.length := by
    intro g hg1 hg2
    rcases hq : g p with ⟨r, q⟩
    rw [hq] at hg1 hg2
    cases r with
    | ok v => simpa [Parser.try_parse_with_fn, hq] using hg1
    | error e =>
      simp only [Parser.try_parse_with_fn, hq]
      show p.cursor ≤ q.tokens.length
      rw [hg2]
      exact hp
  refine ⟨?_, hwf f hf.1 hf.2, hwf _ hparse.1 hparse.2, ?_, ?_⟩
  · rw [hn1]; omega
  · rcases hq : (Parse.parse p : Except Error α × Parser) with ⟨r, q⟩
    rw [hq] at hparse
    cases r with
    | ok v =>
      cases hpred : predicate v q with
      | ok u => simpa [Parser.try_parse_then, hq, hpred] using hparse.1
      | error e =>
        simp only [Parser.try_parse_then, hq, hpred]
        show p.cursor ≤ q.tokens.length
        rw [hparse.2]
        exact hp
    | error e =>
      simp only [Parser.try_parse_then, hq]
      show p.cursor ≤ q.tokens.length
      rw [hparse.2]
      exact hp
  · rcases hq : (Parse.parse p : Except Error α × Parser) with ⟨r, q⟩
    rw [hq] at hparse
    cases r with
    | ok v =>
      by_cases he : q.cursor = q.tokens.length <;>
        simp [Parser.try_parse_full, hq, he, hparse.1]
    | error e => simpa [Parser.try_parse_full, hq] using hparse.1

/-- C8 witness: the bound-preservation conclusions evaluated on a concrete
parser, parse function and predicate. -/
theorem C8_witness :
    ((pOne.next_token).2.cursor ≤ (pOne.next_token).2.tokens.length)
  ∧ ((pOne.try_parse_with_fn fun q => (Except.ok (⟨tokA⟩ : NToken), q)).2.cursor ≤
       (pOne.try_parse_with_fn fun q => (Except.ok (⟨tokA⟩ : NToken), q)).2.tokens.length)
  ∧ ((Parser.try_parse NToken pOne).2.cursor ≤
       (Parser.try_parse NToken pOne).2.tokens.length)
  ∧ ((Parser.try_parse_then NToken pOne fun _ _ => Except.ok ()).2.cursor ≤
       (Parser.try_parse_then NToken pOne fun _ _ => Except.ok ()).2.tokens.length)
  ∧ ((Parser.try_parse_full NToken pOne).2.cursor ≤
       (Parser.try_parse_full NToken pOne).2.tokens.length) :=
  C8_cursor_stays_within_bounds (α := NToken) pOne
    (fun q => (Except.ok ⟨tokA⟩, q)) (fun _ _ => Except.ok ())
    (by decide) ⟨by decide, rfl⟩ ⟨by decide, rfl⟩

/-- C9: `span()` returns the span of the token at the cursor when the
cursor is within the token stream; when the cursor is exhausted it returns
the zero-width span at the end of the last token's span, or the span
`0..0` when the token stream is empty. -/
theorem C9_span_spec :
    (∀ (p : Parser) (t : Token), p.tokens.get? p.cursor = some t →
       p.span = t.span)
  ∧ (∀ (p : Parser) (t : Token), p.tokens.length ≤ p.cursor →
       p.tokens.getLast? = some t → p.span = ⟨t.span.stop, t.span.stop⟩)
  ∧ (∀ p : Parser, p.tokens = [] → p.span = ⟨0, 0⟩) := by
  refine ⟨?_, ?_, ?_⟩
  · intro p t h
    unfold Parser.span
    rw [h]
  · intro p t hle hl
    unfold Parser.span Parser.eof_span
    rw [List.get?_eq_none.mpr hle, hl]
  · intro p h
    unfold Parser.span Parser.eof_span
    rw [h]
    simp

/-- C9 witness: the token span at the cursor, the zero-width end span
after the last token, and `0..0` for an empty stream, each on a concrete
parser. -/
theorem C9_witness :
    (Parser.span pOne = ⟨0, 1⟩)
  ∧ (Parser.span ⟨[tokA, tokB], 2⟩ = ⟨3, 3⟩)
  ∧ (Parser.span pEmpty = ⟨0, 0⟩) :=
  ⟨C9_span_spec.1 pOne tokA rfl,
   C9_span_spec.2.1 ⟨[tokA, tokB], 2⟩ tokB (by decide) rfl,
   C9_span_spec.2.2 pEmpty rfl⟩

/-- C10: a failing `next_token` call is not cursor-neutral: when every
token at or after the cursor is whitespace, the cursor is advanced past
all of them to `len(tokens)` before the end-of-input error is returned. -/
theorem C10_next_token_error_advances_cursor (p : Parser)
    (hp : p.cursor ≤ p.tokens.length)
    (hall : ∀ j, p.cursor ≤ j → ∀ u, p.tokens.get? j = some u →
       u.is_whitespace = true) :
    p.next_token = (Except.error (Error.new p.eof_span ErrorKind.UnexpectedEof),
      { p with cursor := p.tokens.length }) := by
  rw [next_token_exhausts p hall]
  have hmax : max p.cursor p.tokens.length = p.tokens.length := by omega
  rw [hmax]

/-- C10 witness: on the stream of two whitespace tokens with the cursor at
0, the failing call leaves the cursor at 2 — it moved forward on the error
path. -/
theorem C10_witness :
    pWs2.next_token =
      (Except.error (Error.new ⟨2, 2⟩ ErrorKind.UnexpectedEof),
       ⟨[wsTok, wsTok2], 2⟩) :=
  C10_next_token_error_advances_cursor pWs2 (by decide)
    (by
      intro j _ u hu
      have hm := List.get?_mem hu
      simp only [pWs2] at hm
      rcases List.mem_pair.mp hm with h | h <;> subst h <;> rfl)

/-- C7: the `PartialOrd` comparison on `Precedence` is a total order
agreeing with the listed binding strengths
`Any < Term < Factor < Exp < Factorial < Neg < Not`: successive variants
compare strictly increasing, every pair of values is comparable (the
comparison never returns `none`), and the comparison is transitive and
antisymmetric. -/
theorem C7_precedence_total_order :
    (Precedence.lt .Any .Term ∧ Precedence.lt .Term .Factor ∧
     Precedence.lt .Factor .Exp ∧ Precedence.lt .Exp .Factorial ∧
     Precedence.lt .Factorial .Neg ∧ Precedence.lt .Neg .Not)
  ∧ (∀ a b : Precedence, a.partial_cmp b = some Ordering.lt ∨
       a.partial_cmp b = some Ordering.eq ∨ a.partial_cmp b = some Ordering.gt)
  ∧ (∀ a b c : Precedence, a.le b → b.le c → a.le c)
  ∧ (∀ a b c : Precedence, a.lt b → b.lt c → a.lt c)
  ∧ (∀ a b : Precedence, a.le b → b.le a → a = b) :=
  ⟨by decide, by decide, by decide, by decide, by decide⟩

/-- C7 witness: transitivity and antisymmetry applied at concrete
precedences, with their hypotheses discharged by evaluation. -/
theorem C7_witness :
    Precedence.lt Precedence.Any Precedence.Factor ∧
    Precedence.Exp = Precedence.Exp :=
  ⟨C7_precedence_total_order.2.2.2.1 Precedence.Any Precedence.Term
      Precedence.Factor (by decide) (by decide),
   C7_precedence_total_order.2.2.2.2 Precedence.Exp Precedence.Exp
      (by decide) (by decide)⟩

/-- C2: every unary operator/operand combination the dispatch table leaves
unsupported — `Factorial` or `BitNot` applied to a `Complex`, `Boolean` or
`Unit` operand, `Neg` applied to a `Boolean` or `Unit` operand, and `Not`
applied to a `Unit` operand — makes `Unary::eval` return an
invalid-unary-operation error whose payload names that operator and the
operand's type name, and whose span list is the operand's span followed by
the operator token's span. -/
theorem C2_invalid_unary_operations (os ops : Span) (c : GComplex) (b : Bool) :
    (Unary.eval_value (Value.Complex c) os ⟨UnaryOpKind.Factorial, ops⟩ =
       Except.error ⟨[os, ops],
         EvalErrorKind.InvalidUnaryOperation UnaryOpKind.Factorial "Complex"⟩)
  ∧ (Unary.eval_value (Value.Complex c) os ⟨UnaryOpKind.BitNot, ops⟩ =
       Except.error ⟨[os, ops],
         EvalErrorKind.InvalidUnaryOperation UnaryOpKind.BitNot "Complex"⟩)
  ∧ (Unary.eval_value (Value.Boolean b) os ⟨UnaryOpKind.Factorial, ops⟩ =
       Except.error ⟨[os, ops],
         EvalErrorKind.InvalidUnaryOperation UnaryOpKind.Factorial "Boolean"⟩)
  ∧ (Unary.eval_value (Value.Boolean b) os ⟨UnaryOpKind.BitNot, ops⟩ =
       Except.error ⟨[os, ops],
         EvalErrorKind.InvalidUnaryOperation UnaryOpKind.BitNot "Boolean"⟩)
  ∧ (Unary.eval_value (Value.Boolean b) os ⟨UnaryOpKind.Neg, ops⟩ =
       Except.error ⟨[os, ops],
         EvalErrorKind.InvalidUnaryOperation UnaryOpKind.Neg "Boolean"⟩)
  ∧ (Unary.eval_value Value.Unit os ⟨UnaryOpKind.Factorial, ops⟩ =
       Except.error ⟨[os, ops],
         EvalErrorKind.InvalidUnaryOperation UnaryOpKind.Factorial "Unit"⟩)
  ∧ (Unary.eval_value Value.Unit os ⟨UnaryOpKind.BitNot, ops⟩ =
       Except.error ⟨[os, ops],
         EvalErrorKind.InvalidUnaryOperation UnaryOpKind.BitNot "Unit"⟩)
  ∧ (Unary.eval_value Value.Unit os ⟨UnaryOpKind.Neg, ops⟩ =
       Except.error ⟨[os, ops],
         EvalErrorKind.InvalidUnaryOperation UnaryOpKind.Neg "Unit"⟩)
  ∧ (Unary.eval_value Value.Unit os ⟨UnaryOpKind.Not, ops⟩ =
       Except.error ⟨[os, ops],
         EvalErrorKind.InvalidUnaryOperation UnaryOpKind.Not "Unit"⟩) :=
  ⟨rfl, rfl, rfl, rfl, rfl, rfl, rfl, rfl, rfl⟩

/-- C3: the unary `Not` operator on a `Number` operand returns
`Boolean(true)` exactly when the number is zero — `Boolean(is_zero n)` in
general, `Boolean(true)` for zero (in particular for `Number(0)`), and
`Boolean(false)` for every nonzero number. -/
theorem C3_not_on_number_tests_zero (n : ℚ) (os ops : Span) :
    (Unary.eval_value (Value.Number n) os ⟨UnaryOpKind.Not, ops⟩ =
       Except.ok (Value.Boolean (n == 0)))
  ∧ (n = 0 → Unary.eval_value (Value.Number n) os ⟨UnaryOpKind.Not, ops⟩ =
       Except.ok (Value.Boolean true))
  ∧ (n ≠ 0 → Unary.eval_value (Value.Number n) os ⟨UnaryOpKind.Not, ops⟩ =
       Except.ok (Value.Boolean false)) := by
  refine ⟨rfl, ?_, ?_⟩
  · intro h
    simp [Unary.eval_value, h]
  · intro h
    simp [Unary.eval_value, h]

/-- C3 witness: `Not` on `Number(0)` gives `Boolean(true)` and on
`Number(5)` gives `Boolean(false)`. -/
theorem C3_witness :
    (Unary.eval_value (Value.Number 0) ⟨0, 1⟩ ⟨UnaryOpKind.Not, ⟨2, 5⟩⟩ =
       Except.ok (Value.Boolean true))
  ∧ (Unary.eval_value (Value.Number 5) ⟨0, 1⟩ ⟨UnaryOpKind.Not, ⟨2, 5⟩⟩ =
       Except.ok (Value.Boolean false)) :=
  ⟨(C3_not_on_number_tests_zero 0 ⟨0, 1⟩ ⟨2, 5⟩).2.1 rfl,
   (C3_not_on_number_tests_zero 5 ⟨0, 1⟩ ⟨2, 5⟩).2.2 (by norm_num)⟩

end CasRs
